import Mathlib

/-!
Verification development for the LinerNotes result-ranking and caching
subsystem.  The definitions below are a shallow embedding of the
TypeScript sources:

* `src/backend/src/services/prioritization/smartRanking.ts`
  (`SmartRankingService`),
* the Redis cache service (`RedisService`: `get`/`set`/`del`,
  `generateSearchKey`, `normalizeSearchTerm`, `calculateSearchTTL`),
* the enhanced search orchestrator (`MusicBrainzEnhancedService`:
  `searchWithSmartPrioritization`, `performMusicBrainzSearch`,
  `filterOfficialReleases`, `extractBasicCredits`, `transformResults`).

Strings are processed as `List Char`; JavaScript's in-place
`Array.prototype.sort` (stable in V8) is modelled by the stable insertion
sort `sortCmp`, and the in-place mutation it performs on
`recording.releases` is made explicit through `rankReleasesAfter` /
`rankPostState`.  JS `undefined`/falsy string handling is modelled with
`Option String` plus the `jsTruthy`/`jsOr` helpers.  `new
Date(s).getFullYear()` is modelled by `yearOf`, which covers the ISO
`YYYY` / `YYYY-MM-DD` date shapes produced by the upstream catalog
(interpreted in UTC); an unparseable date yields `none` (the `NaN` case).
-/

/-- ASCII whitespace, modelling JS string `trim` and the regex class `\s`
for the ASCII inputs this service handles. -/
def isWS (c : Char) : Bool := c == ' ' || c == '\t' || c == '\n' || c == '\r'

/-- Lowercase a character list, modelling JS `toLowerCase` on ASCII input. -/
def lowerL (cs : List Char) : List Char := cs.map Char.toLower

/-- Trim whitespace from both ends, modelling JS `String.prototype.trim`. -/
def trimL (cs : List Char) : List Char :=
  ((cs.dropWhile isWS).reverse.dropWhile isWS).reverse

/-- Character allowed by the normalization character class `[a-z0-9]`. -/
def isLowerAlnum (c : Char) : Bool :=
  ('a' ≤ c && c ≤ 'z') || ('0' ≤ c && c ≤ '9')

/-- Prefix test on character lists (JS `startsWith`, used to build
`includes`). -/
def isPrefixL : List Char → List Char → Bool
  | [], _ => true
  | _ :: _, [] => false
  | a :: as, b :: bs => a == b && isPrefixL as bs

/-- Substring test, modelling JS `String.prototype.includes`. -/
def isInfixL (pat : List Char) : List Char → Bool
  | [] => pat.isEmpty
  | c :: t => isPrefixL pat (c :: t) || isInfixL pat t

/-- JS `haystack.includes(needle)` on `String`. -/
def strIncludes (hay pat : String) : Bool := isInfixL pat.toList hay.toList

/-- Window test for the regex `\d{4}-\d{4}` at the head of the list. -/
def yearRangeAt : List Char → Bool
  | d1 :: d2 :: d3 :: d4 :: h :: e1 :: e2 :: e3 :: e4 :: _ =>
    d1.isDigit && d2.isDigit && d3.isDigit && d4.isDigit && h == '-' &&
    e1.isDigit && e2.isDigit && e3.isDigit && e4.isDigit
  | _ => false

/-- Search for the regex `\d{4}-\d{4}` anywhere in the list (the
"1962-1966" year-range pattern of `detectCompilation`). -/
def hasYearRange : List Char → Bool
  | [] => false
  | c :: t => yearRangeAt (c :: t) || hasYearRange t

/-- Numeric value of a digit list (most significant first). -/
def digitsToNat (cs : List Char) : Nat :=
  cs.foldl (fun a c => a * 10 + (c.toNat - 48)) 0

/-- Model of `new Date(s).getFullYear()` for the ISO-shaped dates
(`"YYYY"`, `"YYYY-MM"`, `"YYYY-MM-DD"`) the upstream catalog emits,
interpreted in UTC; `none` models the `NaN` result on other inputs. -/
def yearOf (s : String) : Option Nat :=
  let ds := s.toList.takeWhile Char.isDigit
  if ds.length == 4 then some (digitsToNat ds) else none

/-- JS truthiness of an optional string: `undefined` and `""` are falsy. -/
def jsTruthy : Option String → Bool
  | none => false
  | some s => s ≠ ""

/-- JS `a || b` on optional strings. -/
def jsOr : Option String → Option String → Option String
  | some s, b => if s = "" then b else some s
  | none, b => b

/-- Collapse of an optional string to `none` when it is JS-falsy. -/
def jsStr : Option String → Option String
  | none => none
  | some s => if s = "" then none else some s

/-! ## Data model (the `MusicBrainzRecording` shape of smartRanking.ts) -/

/-- Referenced artist object (`artist: { name }`). -/
structure ArtistRef where
  name : String
deriving DecidableEq, Repr

/-- Recording-level artist credit entry.  The TS interface declares
`artist` as required but `extractBasicCredits` guards on its presence, so
it is optional here; `joinphrase` is read dynamically by the credits
extractor. -/
structure ArtistCredit where
  name : String
  artist : Option ArtistRef := none
  joinphrase : Option String := none
deriving DecidableEq, Repr

/-- Release-level artist credit entry (only `name` is read). -/
structure RelArtistCredit where
  name : String
deriving DecidableEq, Repr

/-- One release of a recording, as read by the ranking service. -/
structure Release where
  id : String := ""
  title : String
  status : Option String := none
  primaryType : Option String := none
  secondaryTypes : Option (List String) := none
  firstReleaseDate : Option String := none
  date : Option String := none
  artistCredit : Option (List RelArtistCredit) := none
deriving DecidableEq, Repr

/-- One relationship record (`relations` entries). -/
structure Relation where
  type : String
  artist : Option ArtistRef := none
  attributes : Option (List String) := none
deriving DecidableEq, Repr

/-- One candidate recording as returned by the upstream catalog. -/
structure Recording where
  id : String
  title : String := ""
  length : Option Nat := none
  disambiguation : Option String := none
  artistCredit : Option (List ArtistCredit) := none
  releases : Option (List Release) := none
  relations : Option (List Relation) := none
deriving DecidableEq, Repr

/-! ## SmartRankingService -/

/-- The `POPULAR_ARTISTS` allow-list of `SmartRankingService`. -/
def POPULAR_ARTISTS : List String :=
  ["the beatles", "queen", "led zeppelin", "pink floyd",
   "david bowie", "bob dylan", "prince", "michael jackson",
   "madonna", "elvis presley", "the rolling stones", "radiohead",
   "nirvana", "u2", "the who", "ac/dc"]

/-- The `COMPILATION_KEYWORDS` list. -/
def COMPILATION_KEYWORDS : List String :=
  ["greatest", "hits", "collection", "best", "compilation",
   "anthology", "essential", "ultimate", "complete",
   "selected", "classics", "definitive", "gold",
   "platinum", "singles", "rarities", "chronicles",
   "retrospective", "treasury", "legend", "very best"]

/-- The `LIVE_BOOTLEG_KEYWORDS` list. -/
def LIVE_BOOTLEG_KEYWORDS : List String :=
  ["live", "concert", "bootleg", "unofficial", "demo",
   "rehearsal", "outtake", "alternate", "unreleased",
   "session", "bbc", "radio", "broadcast", "soundcheck"]

/-- `hasArtistMatch`: case-insensitive substring search for the trimmed,
lowercased search artist in the recording-level credits (both the credit
name and the credited artist object name) and in every release-level
credit name.  An empty search artist matches everything. -/
def hasArtistMatch (rec : Recording) (searchArtist : String) : Bool :=
  if searchArtist = "" then true
  else
    let q := trimL (lowerL searchArtist.toList)
    ((rec.artistCredit.getD []).any fun credit =>
      isInfixL q (lowerL credit.name.toList) ||
      (match credit.artist with
       | some a => isInfixL q (lowerL a.name.toList)
       | none => false)) ||
    ((rec.releases.getD []).any fun release =>
      (release.artistCredit.getD []).any fun credit =>
        isInfixL q (lowerL credit.name.toList))

/-- `detectCompilation`: 200 per compilation keyword found in the
lowercased title, plus 300 for a `\d{4}-\d{4}` year-range pattern, plus
100 for `vol`/`volume`. -/
def detectCompilation (title : String) : Nat :=
  if title = "" then 0
  else
    let t := lowerL title.toList
    let p := COMPILATION_KEYWORDS.foldl
      (fun acc kw => if isInfixL kw.toList t then acc + 200 else acc) 0
    let p := if hasYearRange t then p + 300 else p
    let p := if isInfixL "vol".toList t || isInfixL "volume".toList t
             then p + 100 else p
    p

/-- `detectLiveOrBootleg`: 150 per live/bootleg keyword found in the
lowercased title. -/
def detectLiveOrBootleg (title : String) : Nat :=
  if title = "" then 0
  else
    let t := lowerL title.toList
    LIVE_BOOTLEG_KEYWORDS.foldl
      (fun acc kw => if isInfixL kw.toList t then acc + 150 else acc) 0

/-- `isPopularArtist`: membership of the lowercased, trimmed artist in
`POPULAR_ARTISTS`. -/
def isPopularArtist (artist : String) : Bool :=
  if artist = "" then false
  else POPULAR_ARTISTS.contains (trimL (lowerL artist.toList)).asString

/-- Descending Bool comparison: the two leading `if` lines of each
criterion in `findBestRelease` (`true` sorts first). -/
def cmpBoolDesc (x y : Bool) : Ordering :=
  if x && !y then .lt else if y && !x then .gt else .eq

/-- Ascending Bool comparison (`false` sorts first), for the
compilation criterion of `findBestRelease`. -/
def cmpBoolAsc (x y : Bool) : Ordering :=
  if !x && y then .lt else if !y && x then .gt else .eq

/-- Ascending Nat comparison (the `aYear - bYear` tail of the
comparators). -/
def cmpNat (x y : Nat) : Ordering :=
  if x < y then .lt else if y < x then .gt else .eq

/-- Ascending Int comparison (the sign of a JS numeric comparator
difference). -/
def cmpInt (x y : Int) : Ordering :=
  if x < y then .lt else if y < x then .gt else .eq

/-- Date string used by `findBestRelease`:
`a['first-release-date'] || a.date || '2099'`. -/
def bestDateStr (r : Release) : String :=
  match jsStr (jsOr r.firstReleaseDate r.date) with
  | some s => s
  | none => "2099"

/-- Year comparison of `findBestRelease`; a `NaN` year (unparseable date)
makes the JS comparator return a non-number, which the sort treats as
equality. -/
def cmpRelYear (a b : Release) : Ordering :=
  match yearOf (bestDateStr a), yearOf (bestDateStr b) with
  | some x, some y => cmpNat x y
  | _, _ => .eq

/-- Compilation test used by the release comparator:
`secondary-types` contains `"Compilation"`, or the title triggers
`detectCompilation`. -/
def isCompilationRel (r : Release) : Bool :=
  (r.secondaryTypes.getD []).contains "Compilation" ||
  decide (0 < detectCompilation r.title)

/-- The release comparator of `findBestRelease`: Official first, then
primary type Album first, then non-compilation first, then earlier
release year first. -/
def cmpRelease (a b : Release) : Ordering :=
  (cmpBoolDesc (a.status == some "Official") (b.status == some "Official")).then
  ((cmpBoolDesc (a.primaryType == some "Album") (b.primaryType == some "Album")).then
  ((cmpBoolAsc (isCompilationRel a) (isCompilationRel b)).then
  (cmpRelYear a b)))

/-- Stable insertion of `x` into `l`: `x` is placed before the first
element it does not compare greater than.  Together with `sortCmp` this
models V8's stable `Array.prototype.sort`. -/
def insertCmp (cmp : α → α → Ordering) (x : α) : List α → List α
  | [] => [x]
  | y :: ys => if cmp x y = .gt then y :: insertCmp cmp x ys else x :: y :: ys

/-- Stable sort by a comparator, modelling `Array.prototype.sort(cmp)`
(V8's sort is stable, and for the consistent comparators used here the
stable sorted order is unique). -/
def sortCmp (cmp : α → α → Ordering) : List α → List α
  | [] => []
  | x :: xs => insertCmp cmp x (sortCmp cmp xs)

/-- `findBestRelease`: sort the releases by `cmpRelease` and take the
first, `none` on an empty list. -/
def findBestRelease (releases : List Release) : Option Release :=
  (sortCmp cmpRelease releases).head?

/-- `scoreReleaseType`: secondary-type Compilation and Live first, then
the primary type. -/
def scoreReleaseType (release : Release) : Int × String :=
  let secondaryTypes := release.secondaryTypes.getD []
  if secondaryTypes.contains "Compilation" then (200, "Compilation album")
  else if secondaryTypes.contains "Live" then (400, "Live album")
  else match release.primaryType with
    | some "Album" => (800, "Studio album")
    | some "Single" => (600, "Single")
    | some "EP" => (400, "EP")
    | some "Broadcast" => (200, "Broadcast")
    | some t => if t = "" then (300, "Other (Unknown)") else (300, "Other (" ++ t ++ ")")
    | none => (300, "Other (Unknown)")

/-- Result record of `calculatePriorityScore`. -/
structure ScoreResult where
  score : Int
  reason : String
  bestRelease : Option Release
deriving DecidableEq, Repr

/-- `calculatePriorityScore`: artist gate, best-release selection,
status bonus, release-type score, compilation and live/bootleg keyword
penalties, popularity bonus, remaster penalty, final clamp at 0. -/
def calculatePriorityScore (rec : Recording) (searchArtist : String) : ScoreResult :=
  if hasArtistMatch rec searchArtist = false then
    { score := 50, reason := "No artist match",
      bestRelease := (rec.releases.getD []).head? }
  else
    let score : Int := 1000
    let reasons : List String := ["Artist match"]
    match findBestRelease (rec.releases.getD []) with
    | none =>
      { score := score + 100,
        reason := String.intercalate ", " reasons ++ ", No releases",
        bestRelease := none }
    | some bestRelease =>
      let (score, reasons) :=
        if bestRelease.status == some "Official" then
          (score + 500, reasons ++ ["Official release"])
        else if bestRelease.status == some "Bootleg" then
          (score - 300, reasons ++ ["Bootleg"])
        else (score, reasons)
      let ts := scoreReleaseType bestRelease
      let score := score + ts.1
      let reasons := reasons ++ [ts.2]
      let cp := detectCompilation bestRelease.title
      let (score, reasons) :=
        if 0 < cp then
          (score - (cp : Int),
           reasons ++ ["Compilation penalty (-" ++ toString cp ++ ")"])
        else (score, reasons)
      let lp := detectLiveOrBootleg bestRelease.title
      let (score, reasons) :=
        if 0 < lp then
          (score - (lp : Int),
           reasons ++ ["Live/bootleg penalty (-" ++ toString lp ++ ")"])
        else (score, reasons)
      let (score, reasons) :=
        if isPopularArtist searchArtist then
          (score + 100, reasons ++ ["Popular artist"])
        else (score, reasons)
      let (score, reasons) :=
        match rec.disambiguation with
        | some d =>
          if d ≠ "" && strIncludes d "remaster" then
            (score - 50, reasons ++ ["Remaster"])
          else (score, reasons)
        | none => (score, reasons)
      { score := max 0 score,
        reason := String.intercalate ", " reasons,
        bestRelease := some bestRelease }

/-- `getEarliestYear`: earliest parseable year in the 1900–2100 window
across the releases, 9999 when there is none. -/
def getEarliestYear (releases : List Release) : Nat :=
  if releases.isEmpty then 9999
  else
    let years := (releases.map fun release =>
        match jsStr (jsOr release.firstReleaseDate release.date) with
        | none => 9999
        | some s => match yearOf s with
          | none => 9999
          | some y => y).filter fun y => 1900 < y && y < 2100
    match years with
    | [] => 9999
    | y :: t => t.foldl Nat.min y

/-- A scored result: the (possibly release-reordered) recording together
with the `_priorityScore`, `_scoringReason` and `_bestRelease`
annotations. -/
structure ScoredResult where
  recording : Recording
  priorityScore : Int
  scoringReason : String
  bestRelease : Option Release
deriving DecidableEq, Repr

/-- The comparator of `sortResults`: descending priority score (the sign
of `b._priorityScore - a._priorityScore` when the scores differ), then
ascending earliest release year. -/
def cmpScored (a b : ScoredResult) : Ordering :=
  (cmpInt b.priorityScore a.priorityScore).then
  (cmpNat (getEarliestYear (a.recording.releases.getD []))
          (getEarliestYear (b.recording.releases.getD [])))

/-- The releases list of a recording after `calculatePriorityScore` has
run on it: `findBestRelease` sorts `recording.releases` **in place**
whenever the artist gate passes and the list is present; the no-match
early return never touches it. -/
def rankReleasesAfter (rec : Recording) (searchArtist : String) : Option (List Release) :=
  match rec.releases with
  | none => none
  | some l =>
    if hasArtistMatch rec searchArtist then some (sortCmp cmpRelease l)
    else some l

/-- A recording as it stands after being scored (its releases array
possibly reordered in place). -/
def recAfterScoring (rec : Recording) (searchArtist : String) : Recording :=
  { rec with releases := rankReleasesAfter rec searchArtist }

/-- `sortResults` (the ranking entry point `rank`): score every
recording, then stable-sort by score descending / earliest year
ascending.  Each scored result carries the post-mutation recording,
mirroring the JS object spread of the mutated input. -/
def sortResults (results : List Recording) (searchArtist : String) : List ScoredResult :=
  let scored := results.map fun recording =>
    let scoring := calculatePriorityScore recording searchArtist
    { recording := recAfterScoring recording searchArtist,
      priorityScore := scoring.score,
      scoringReason := scoring.reason,
      bestRelease := scoring.bestRelease }
  sortCmp cmpScored scored

/-- The state of the input candidate list after `sortResults` returns:
`rank` mutates each matched candidate's releases array in place and
leaves everything else untouched. -/
def rankPostState (results : List Recording) (searchArtist : String) : List Recording :=
  results.map fun recording => recAfterScoring recording searchArtist

/-! ## RedisService (cache store, key generation, TTL policy) -/

/-- Replace every maximal whitespace run by a single `rep` character
(the `replace(/\s+/g, rep)` step); the flag records whether the previous
character was part of a whitespace run. -/
def collapseWSAux (rep : Char) : Bool → List Char → List Char
  | _, [] => []
  | inRun, c :: t =>
    if isWS c then
      if inRun then collapseWSAux rep true t
      else rep :: collapseWSAux rep true t
    else c :: collapseWSAux rep false t

/-- `normalizeSearchTerm`: lowercase, trim, strip characters outside
`[a-z0-9\s]`, replace whitespace runs by `_`. -/
def normalizeSearchTerm (term : String) : String :=
  (collapseWSAux '_' false
    ((trimL (lowerL term.toList)).filter fun c => isLowerAlnum c || isWS c)).asString

/-- Error kinds thrown by `generateSearchKey` (`'Search terms too long
for caching'` and `'Invalid characters in search terms'`). -/
inductive KeyErr
  | inputTooLong
  | invalidCharacters
deriving DecidableEq, Repr

/-- `generateSearchKey`: length cap of 200 on each raw input (checked
first), normalization, rejection of a surviving `:` separator, then the
`search:<artist>:<song>` key. -/
def generateSearchKey (artist song : String) : Except KeyErr String :=
  if 200 < artist.length || 200 < song.length then .error .inputTooLong
  else
    let normalizedArtist := normalizeSearchTerm artist
    let normalizedSong := normalizeSearchTerm song
    if strIncludes normalizedArtist ":" || strIncludes normalizedSong ":" then
      .error .invalidCharacters
    else .ok ("search:" ++ normalizedArtist ++ ":" ++ normalizedSong)

/-- The popular-artist list hard-coded inside `calculateSearchTTL`
(12 entries, unlike the 16-entry `POPULAR_ARTISTS` of the ranking
service). -/
def TTL_POPULAR_ARTISTS : List String :=
  ["the beatles", "queen", "led zeppelin", "pink floyd",
   "david bowie", "bob dylan", "prince", "michael jackson",
   "madonna", "elvis presley", "the rolling stones", "radiohead"]

/-- `calculateSearchTTL`: 24 hours for artists on the TTL popularity
list (after lowercasing and trimming), 6 hours otherwise. -/
def calculateSearchTTL (artist : String) : Nat :=
  let normalizedArtist := (trimL (lowerL artist.toList)).asString
  if TTL_POPULAR_ARTISTS.contains normalizedArtist then 24 * 3600 else 6 * 3600

/-- The underlying Redis client: every operation can raise (connection
lost, store unreachable). -/
structure CacheClient (α : Type) where
  cget : String → Except Unit (Option α)
  cset : String → α → Option Nat → Except Unit Unit
  cdel : String → Except Unit Unit

/-- The state a `RedisService` instance operates in: the `isConnected`
flag plus the underlying client. -/
structure CacheEnv (α : Type) where
  connected : Bool
  client : CacheClient α

/-- `RedisService.get`: miss when not connected, miss when the client
raises (the `catch` branch), otherwise the stored value.  Totality of
this function models the no-exception contract. -/
def redisGet (env : CacheEnv α) (key : String) : Option α :=
  if env.connected = false then none
  else match env.client.cget key with
    | .error _ => none
    | .ok v => v

/-- `RedisService.set`: `false` when not connected or when the client
raises, `true` on success. -/
def redisSet (env : CacheEnv α) (key : String) (value : α) (ttl : Option Nat) : Bool :=
  if env.connected = false then false
  else match env.client.cset key value ttl with
    | .error _ => false
    | .ok _ => true

/-- `RedisService.del`: `false` when not connected or when the client
raises, `true` on success. -/
def redisDel (env : CacheEnv α) (key : String) : Bool :=
  if env.connected = false then false
  else match env.client.cdel key with
    | .error _ => false
    | .ok _ => true

/-- An unreachable cache store: either the service never connected, or
every client operation errors. -/
def failingCache (env : CacheEnv α) : Prop :=
  env.connected = false ∨
  ((∀ k, env.client.cget k = .error ()) ∧
   (∀ k v t, env.client.cset k v t = .error ()) ∧
   (∀ k, env.client.cdel k = .error ()))

/-! ## MusicBrainzEnhancedService -/

/-- Credit entry shape used by the five credit buckets. -/
structure CreditEntry where
  name : String
  role : String
  attributes : Option String := none
  instrument : Option String := none
deriving DecidableEq, Repr

/-- The five fixed credit buckets. -/
structure Credits where
  songwriters : List CreditEntry := []
  producers : List CreditEntry := []
  musicians : List CreditEntry := []
  engineers : List CreditEntry := []
  miscellaneous : List CreditEntry := []
deriving DecidableEq, Repr

/-- `relation.attributes?.join(', ') || undefined`. -/
def joinAttrs : Option (List String) → Option String
  | none => none
  | some l =>
    let s := String.intercalate ", " l
    if s = "" then none else some s

/-- Relationship types classified as songwriting credits
(`composer`/`lyricist`/`writer` as substrings of the lowercased type). -/
def isWriterType (t : String) : Bool :=
  let rt := lowerL t.toList
  isInfixL "composer".toList rt || isInfixL "lyricist".toList rt ||
  isInfixL "writer".toList rt

/-- One step of the relationship loop of `extractBasicCredits`: the
state is the credits built so far plus the `foundActualSongwriters`
flag. -/
def creditsStep (state : Credits × Bool) (relation : Relation) : Credits × Bool :=
  let credits := state.1
  let found := state.2
  if relation.type ≠ "" then
    match relation.artist with
    | none => (credits, found)
    | some a =>
      let rt := lowerL relation.type.toList
      let credit : CreditEntry :=
        { name := a.name, role := relation.type,
          attributes := joinAttrs relation.attributes }
      if isWriterType relation.type then
        let credits := if found then credits else { credits with songwriters := [] }
        ({ credits with songwriters := credits.songwriters ++ [credit] }, true)
      else if isInfixL "producer".toList rt then
        ({ credits with producers := credits.producers ++ [credit] }, found)
      else if isInfixL "performer".toList rt || isInfixL "vocal".toList rt ||
              isInfixL "instrument".toList rt then
        let inst := match joinAttrs relation.attributes with
          | some s => s
          | none => relation.type
        ({ credits with musicians :=
            credits.musicians ++ [{ credit with instrument := some inst }] }, found)
      else if isInfixL "engineer".toList rt || isInfixL "mix".toList rt ||
              isInfixL "master".toList rt then
        ({ credits with engineers := credits.engineers ++ [credit] }, found)
      else
        ({ credits with miscellaneous := credits.miscellaneous ++ [credit] }, found)
  else (credits, found)

/-- One step of the `artist-credit` loop of `extractBasicCredits`: each
credit with an artist object is appended to the musicians bucket and,
provisionally, to the songwriter bucket. -/
def performerCreditsStep (credits : Credits) (artistCredit : ArtistCredit) : Credits :=
  match artistCredit.artist with
  | some a =>
    { credits with
      musicians := credits.musicians ++
        [{ name := a.name, role := "Artist",
           attributes := jsStr artistCredit.joinphrase }],
      songwriters := credits.songwriters ++
        [{ name := a.name, role := "Artist (assumed songwriter)",
           attributes := some "performer" }] }
  | none => credits

/-- `extractBasicCredits`: provisionally fill the songwriter bucket with
the credited performers, then walk the relationship records; the first
explicit composer/lyricist/writer relationship clears the provisional
entries, and if none is found the provisional entries are relabelled
`Performer (likely songwriter)`. -/
def extractBasicCredits (result : Recording) : Credits :=
  let init : Credits :=
    (result.artistCredit.getD []).foldl performerCreditsStep {}
  let state := (result.relations.getD []).foldl creditsStep (init, false)
  let credits := state.1
  let found := state.2
  if !found && !credits.songwriters.isEmpty then
    let relabel := fun (sw : CreditEntry) =>
      { sw with role := "Performer (likely songwriter)" }
    { credits with songwriters := credits.songwriters.map relabel }
  else credits

/-- `extractArtistName`: join the recording-level credit names, fall back
to the first release's credit names, else `Unknown Artist`. -/
def extractArtistName (result : Recording) : String :=
  match result.artistCredit with
  | some l =>
    if !l.isEmpty then String.intercalate ", " (l.map fun ac => ac.name)
    else match (result.releases.getD []).head? with
      | some firstRelease =>
        match firstRelease.artistCredit with
        | some rl => String.intercalate ", " (rl.map fun ac => ac.name)
        | none => "Unknown Artist"
      | none => "Unknown Artist"
  | none =>
    match (result.releases.getD []).head? with
    | some firstRelease =>
      match firstRelease.artistCredit with
      | some rl => String.intercalate ", " (rl.map fun ac => ac.name)
      | none => "Unknown Artist"
    | none => "Unknown Artist"

/-- The transformed search result handed back to the web layer. -/
structure EnhancedSearchResult where
  id : String
  title : String
  artist : String
  album : String
  year : Option Nat
  releaseDate : Option String
  duration : Option Nat
  credits : Credits
  musicbrainzId : String
  disambiguation : Option String
  priorityScore : Int
  scoringReason : String
  cached : Bool
deriving DecidableEq, Repr

/-- `transformResults`: map each scored candidate to the frontend
shape. -/
def transformResults (scoredResults : List ScoredResult) : List EnhancedSearchResult :=
  scoredResults.map fun result =>
    let bestRelease : Option Release :=
      match result.bestRelease with
      | some b => some b
      | none => (result.recording.releases.getD []).head?
    let earliestYear := getEarliestYear (result.recording.releases.getD [])
    { id := "mb-" ++ result.recording.id,
      title := result.recording.title,
      artist := extractArtistName result.recording,
      album := match bestRelease with
        | some b => if b.title = "" then "Unknown Album" else b.title
        | none => "Unknown Album",
      year := if earliestYear ≠ 9999 then some earliestYear else none,
      releaseDate := match bestRelease with
        | some b => jsOr b.firstReleaseDate b.date
        | none => none,
      duration := match result.recording.length with
        | some n => if n = 0 then none else some (n / 1000)
        | none => none,
      credits := extractBasicCredits result.recording,
      musicbrainzId := result.recording.id,
      disambiguation := result.recording.disambiguation,
      priorityScore := result.priorityScore,
      scoringReason := result.scoringReason,
      cached := false }

/-- Lucene special characters stripped by `sanitizeLuceneQuery`. -/
def luceneSpecials : List Char :=
  ['+', '-', '&', '|', '!', '(', ')', '\x7b', '\x7d', '[', ']', '^',
   '"', '~', '*', '?', ':', '\\']

/-- `sanitizeLuceneQuery`: blank out Lucene metacharacters, normalize
whitespace runs to one space, trim. -/
def sanitizeLuceneQuery (input : String) : String :=
  if input = "" then ""
  else
    (trimL (collapseWSAux ' ' false
      (input.toList.map fun c => if luceneSpecials.contains c then ' ' else c))).asString

/-- `buildSearchQueries`: length validation, sanitization, then the
fallback query ladder (3 queries with artist and song, 3 song-only,
2 artist-only, error when both sanitize to nothing). -/
def buildSearchQueries (artist song : String) : Except Unit (List String) :=
  if 200 < artist.length || 200 < song.length then .error ()
  else
    let sanitizedArtist := sanitizeLuceneQuery artist
    let sanitizedSong := sanitizeLuceneQuery song
    if sanitizedArtist ≠ "" && sanitizedSong ≠ "" then
      .ok ["recording:\"" ++ sanitizedSong ++ "\" AND artist:\"" ++ sanitizedArtist ++ "\"",
           "recording:" ++ sanitizedSong ++ " AND artist:" ++ sanitizedArtist,
           sanitizedSong ++ " AND artist:" ++ sanitizedArtist]
    else if sanitizedSong ≠ "" then
      .ok ["recording:\"" ++ sanitizedSong ++ "\"",
           "recording:" ++ sanitizedSong,
           sanitizedSong]
    else if sanitizedArtist ≠ "" then
      .ok ["artist:\"" ++ sanitizedArtist ++ "\"",
           "artist:" ++ sanitizedArtist]
    else .error ()

/-- `filterOfficialReleases`: keep only releases whose status is
`Official` or absent, then drop recordings left with no releases. -/
def filterOfficialReleases (recordings : List Recording) : List Recording :=
  (recordings.map fun recording =>
    { recording with releases := some ((recording.releases.getD []).filter fun release =>
        release.status == some "Official" || !(jsTruthy release.status)) })
    |>.filter fun recording => !(recording.releases.getD []).isEmpty

/-- The query-attempt loop of `performMusicBrainzSearch`: `resps i` is
the outcome of the `i`-th upstream call (an exception or a raw recording
list), `limit` bounds the accumulated results, a failed attempt is
swallowed and the next query tried, and a non-empty first (exact-match)
attempt short-circuits. -/
def mbAttempts (resps : Nat → Except Unit (List Recording)) (limit : Nat) :
    Nat → List String → List Recording → List Recording
  | _, [], acc => acc
  | i, _q :: qs, acc =>
    if limit ≤ acc.length then acc
    else match resps i with
      | .error _ => mbAttempts resps limit (i + 1) qs acc
      | .ok recordings =>
        let filtered := filterOfficialReleases recordings
        let acc2 := filtered.foldl
          (fun a r => if a.any fun existing => existing.id == r.id then a else a ++ [r]) acc
        if i == 0 && !filtered.isEmpty then acc2
        else mbAttempts resps limit (i + 1) qs acc2

/-- `performMusicBrainzSearch`: build the query ladder (a validation
failure is re-thrown as `MusicBrainz search failed`), then run the
attempt loop. -/
def performMusicBrainzSearch (artist song : String) (limit : Nat)
    (resps : Nat → Except Unit (List Recording)) : Except Unit (List Recording) :=
  match buildSearchQueries artist song with
  | .error _ => .error ()
  | .ok queries => .ok (mbAttempts resps limit 0 queries [])

/-- The payload cached for a search (`results` plus metadata). -/
structure CachedSearch where
  results : List EnhancedSearchResult
  ttl : Nat
  artist : String
  song : String

/-- `getCachedSearchResults`: build the search key (which can throw),
read the store, return the `results` field of a hit. -/
def getCachedSearchResults (env : CacheEnv CachedSearch) (artist song : String) :
    Except KeyErr (Option (List EnhancedSearchResult)) :=
  match generateSearchKey artist song with
  | .error e => .error e
  | .ok key =>
    .ok (match redisGet env key with
      | some cached => some cached.results
      | none => none)

/-- `cacheSearchResults`: build the search key (which can throw), then
write through `redisSet`; the write outcome is reported but never
thrown. -/
def cacheSearchResults (env : CacheEnv CachedSearch) (artist song : String)
    (results : List EnhancedSearchResult) (ttl : Nat) : Except KeyErr Bool :=
  match generateSearchKey artist song with
  | .error e => .error e
  | .ok key => .ok (redisSet env key ⟨results, ttl, artist, song⟩ (some ttl))

/-- Error kinds surfaced by the orchestrated search. -/
inductive SearchErr
  | keyErr (e : KeyErr)
  | upstreamFailed
deriving DecidableEq, Repr

/-- The response shape of `searchWithSmartPrioritization` (wall-clock
timing metadata omitted). -/
structure SearchResponse where
  results : List EnhancedSearchResult
  totalCount : Nat
  cached : Bool
  cacheHit : Bool
  cacheTtl : Option Nat

/-- `searchWithSmartPrioritization`: cache check, rate-limited upstream
fetch (`limit * 2` raw results requested), smart ranking, transformation,
TTL computation and cache write-through, truncation to `limit`. -/
def searchWithSmartPrioritization (env : CacheEnv CachedSearch)
    (resps : Nat → Except Unit (List Recording))
    (artist song : String) (limit : Nat) : Except SearchErr SearchResponse :=
  match getCachedSearchResults env artist song with
  | .error e => .error (.keyErr e)
  | .ok (some cachedResults) =>
    .ok { results := cachedResults.take limit, totalCount := cachedResults.length,
          cached := true, cacheHit := true, cacheTtl := none }
  | .ok none =>
    match performMusicBrainzSearch artist song (limit * 2) resps with
    | .error _ => .error .upstreamFailed
    | .ok rawResults =>
      let rankedResults := sortResults rawResults artist
      let enhancedResults := transformResults rankedResults
      let ttl := calculateSearchTTL artist
      match cacheSearchResults env artist song enhancedResults ttl with
      | .error e => .error (.keyErr e)
      | .ok _ =>
        .ok { results := enhancedResults.take limit,
              totalCount := enhancedResults.length,
              cached := false, cacheHit := false, cacheTtl := some ttl }

/-! ## Properties of the stable comparator sort -/

theorem perm_insertCmp (cmp : α → α → Ordering) (x : α) (l : List α) :
    List.Perm (insertCmp cmp x l) (x :: l) := by
  induction l with
  | nil => exact List.Perm.refl _
  | cons y ys ih =>
    unfold insertCmp
    by_cases h : cmp x y = .gt
    · rw [if_pos h]
      exact (ih.cons y).trans (List.Perm.swap x y ys)
    · rw [if_neg h]

theorem perm_sortCmp (cmp : α → α → Ordering) (l : List α) :
    List.Perm (sortCmp cmp l) l := by
  induction l with
  | nil => exact List.Perm.refl _
  | cons x xs ih =>
    exact (perm_insertCmp cmp x (sortCmp cmp xs)).trans (ih.cons x)

theorem pairwise_insertCmp (cmp : α → α → Ordering) (P : α → Prop)
    (hswap : ∀ x y, P x → P y → cmp x y = .gt → cmp y x ≠ .gt)
    (htrans : ∀ x y z, P x → P y → P z → cmp x y ≠ .gt → cmp y z ≠ .gt → cmp x z ≠ .gt)
    (x : α) (l : List α) (hx : P x) (hl : ∀ y ∈ l, P y)
    (hp : l.Pairwise fun a b => cmp a b ≠ .gt) :
    (insertCmp cmp x l).Pairwise fun a b => cmp a b ≠ .gt := by
  induction l with
  | nil => simp [insertCmp]
  | cons y ys ih =>
    rw [List.pairwise_cons] at hp
    obtain ⟨hy, hys⟩ := hp
    have hyP : P y := hl y (List.mem_cons_self y ys)
    have hysP : ∀ z ∈ ys, P z := fun z hz => hl z (List.mem_cons_of_mem y hz)
    unfold insertCmp
    by_cases hgt : cmp x y = .gt
    · rw [if_pos hgt]
      refine List.Pairwise.cons ?_ (ih hysP hys)
      intro z hz
      rcases List.mem_cons.mp ((perm_insertCmp cmp x ys).mem_iff.mp hz) with h | h
      · rw [h]
        exact hswap x y hx hyP hgt
      · exact hy z h
    · rw [if_neg hgt]
      refine List.Pairwise.cons ?_ (List.Pairwise.cons hy hys)
      intro z hz
      rcases List.mem_cons.mp hz with h | h
      · subst h
        exact hgt
      · exact htrans x y z hx hyP (hysP z h) hgt (hy z h)

theorem pairwise_sortCmp (cmp : α → α → Ordering) (P : α → Prop)
    (hswap : ∀ x y, P x → P y → cmp x y = .gt → cmp y x ≠ .gt)
    (htrans : ∀ x y z, P x → P y → P z → cmp x y ≠ .gt → cmp y z ≠ .gt → cmp x z ≠ .gt)
    (l : List α) (hl : ∀ x ∈ l, P x) :
    (sortCmp cmp l).Pairwise fun a b => cmp a b ≠ .gt := by
  induction l with
  | nil => simp [sortCmp]
  | cons x xs ih =>
    unfold sortCmp
    exact pairwise_insertCmp cmp P hswap htrans x (sortCmp cmp xs)
      (hl x (List.mem_cons_self x xs))
      (fun y hy => hl y (List.mem_cons_of_mem x ((perm_sortCmp cmp xs).mem_iff.mp hy)))
      (ih fun y hy => hl y (List.mem_cons_of_mem x hy))

theorem cmpNat_eq_gt {x y : Nat} : cmpNat x y = .gt ↔ y < x := by
  unfold cmpNat
  split_ifs <;> simp_all <;> omega

theorem cmpNat_ne_gt {x y : Nat} : cmpNat x y ≠ .gt ↔ x ≤ y := by
  rw [Ne, cmpNat_eq_gt]
  omega

theorem cmpInt_eq_gt {x y : Int} : cmpInt x y = .gt ↔ y < x := by
  unfold cmpInt
  split_ifs <;> simp_all <;> omega

theorem cmpInt_ne_gt {x y : Int} : cmpInt x y ≠ .gt ↔ x ≤ y := by
  rw [Ne, cmpInt_eq_gt]
  omega

/-! ## Numeric bounds for the comparator keys -/

theorem foldl_min_le (t : List Nat) (y : Nat) : t.foldl Nat.min y ≤ y := by
  induction t generalizing y with
  | nil => exact Nat.le_refl y
  | cons a t ih =>
    exact Nat.le_trans (ih (Nat.min y a)) (Nat.min_le_left y a)

theorem getEarliestYear_lt (rs : List Release) : getEarliestYear rs < 16384 := by
  have key : ∀ ys : List Nat, (∀ y ∈ ys, y < 2100) →
      (match ys with | [] => 9999 | y :: t => t.foldl Nat.min y) < 16384 := by
    intro ys hys
    match ys with
    | [] =>
      show (9999 : Nat) < 16384
      omega
    | y :: t =>
      show t.foldl Nat.min y < 16384
      have h1 := foldl_min_le t y
      have h2 := hys y (List.mem_cons_self y t)
      omega
  simp only [getEarliestYear]
  split
  · omega
  · refine key _ ?_
    intro y hy
    have hp := (List.mem_filter.mp hy).2
    simp only [Bool.and_eq_true, decide_eq_true_eq] at hp
    exact hp.2

theorem digitsToNat_bound (cs : List Char) (a : Nat) (h : ∀ c ∈ cs, c.isDigit) :
    cs.foldl (fun a c => a * 10 + (c.toNat - 48)) a < (a + 1) * 10 ^ cs.length := by
  induction cs generalizing a with
  | nil => simpa using Nat.lt_succ_self a
  | cons c t ih =>
    have hd : c.toNat - 48 ≤ 9 := by
      have hc := h c (List.mem_cons_self c t)
      have : c ≤ '9' := by
        simp only [Char.isDigit, Bool.and_eq_true, decide_eq_true_eq] at hc
        exact hc.2
      have : c.toNat ≤ 57 := this
      omega
    have ht := ih (a * 10 + (c.toNat - 48)) (fun x hx => h x (List.mem_cons_of_mem c hx))
    simp only [List.foldl_cons, List.length_cons]
    calc t.foldl (fun a c => a * 10 + (c.toNat - 48)) (a * 10 + (c.toNat - 48))
        < (a * 10 + (c.toNat - 48) + 1) * 10 ^ t.length := ht
      _ ≤ (a + 1) * 10 ^ (t.length + 1) := by
          rw [pow_succ]
          have : a * 10 + (c.toNat - 48) + 1 ≤ (a + 1) * 10 := by omega
          calc (a * 10 + (c.toNat - 48) + 1) * 10 ^ t.length
              ≤ ((a + 1) * 10) * 10 ^ t.length := Nat.mul_le_mul_right _ this
            _ = (a + 1) * (10 ^ t.length * 10) := by ring

theorem yearOf_lt {s : String} {y : Nat} (h : yearOf s = some y) : y < 10000 := by
  have hb := digitsToNat_bound (s.toList.takeWhile Char.isDigit) 0
    (fun c hc => List.mem_takeWhile_imp hc)
  simp only [yearOf] at h
  by_cases hlen : ((s.toList.takeWhile Char.isDigit).length == 4) = true
  · rw [if_pos hlen] at h
    injection h with h2
    simp only [beq_iff_eq] at hlen
    rw [hlen] at hb
    have hpow : (0 + 1) * 10 ^ 4 = 10000 := by norm_num
    rw [hpow] at hb
    rw [← h2]
    unfold digitsToNat
    exact hb
  · rw [if_neg hlen] at h
    cases h

theorem cmpNat_lt_of {x y : Nat} (h : x < y) : cmpNat x y = .lt := by
  unfold cmpNat
  rw [if_pos h]

theorem cmpNat_gt_of {x y : Nat} (h : y < x) : cmpNat x y = .gt := by
  unfold cmpNat
  split_ifs <;> first | rfl | omega

theorem cmpNat_add_left (c x y : Nat) : cmpNat (c + x) (c + y) = cmpNat x y := by
  unfold cmpNat
  split_ifs <;> first | rfl | omega

theorem cmpInt_lt_of {x y : Int} (h : x < y) : cmpInt x y = .lt := by
  unfold cmpInt
  rw [if_pos h]

theorem cmpInt_gt_of {x y : Int} (h : y < x) : cmpInt x y = .gt := by
  unfold cmpInt
  split_ifs <;> first | rfl | omega

theorem cmpNat_eq_cmpInt_add (c : Int) (x y : Nat) :
    cmpNat x y = cmpInt (c + (x : Int)) (c + (y : Int)) := by
  unfold cmpNat cmpInt
  split_ifs <;> first | rfl | omega

/-- Numeric sort key for `cmpRelease` on releases whose effective date
parses: Official status, Album primary type, non-compilation, then the
release year, packed lexicographically. -/
def relKey (r : Release) : Nat :=
  (if r.status == some "Official" then 0 else 65536) +
  (if r.primaryType == some "Album" then 0 else 32768) +
  (if isCompilationRel r then 16384 else 0) +
  (yearOf (bestDateStr r)).getD 0

theorem cmpRelease_eq_key (a b : Release)
    (ha : (yearOf (bestDateStr a)).isSome) (hb : (yearOf (bestDateStr b)).isSome) :
    cmpRelease a b = cmpNat (relKey a) (relKey b) := by
  obtain ⟨ya, hya⟩ := Option.isSome_iff_exists.mp ha
  obtain ⟨yb, hyb⟩ := Option.isSome_iff_exists.mp hb
  have hya2 := yearOf_lt hya
  have hyb2 := yearOf_lt hyb
  unfold cmpRelease cmpRelYear relKey
  rw [hya, hyb]
  cases h1 : (a.status == some "Official") <;>
    cases h2 : (b.status == some "Official") <;>
    cases h3 : (a.primaryType == some "Album") <;>
    cases h4 : (b.primaryType == some "Album") <;>
    cases h5 : isCompilationRel a <;>
    cases h6 : isCompilationRel b <;>
    simp only [cmpBoolDesc, cmpBoolAsc, Bool.and_true, Bool.and_false, Bool.true_and,
      Bool.false_and, Bool.not_true, Bool.not_false, Bool.and_self, if_true, if_false,
      Bool.false_eq_true, Bool.true_eq_false, Ordering.then, Option.getD_some,
      Nat.zero_add, Nat.add_zero] <;>
    first
      | rfl
      | exact (cmpNat_add_left _ _ _).symm
      | exact (cmpNat_lt_of (by omega)).symm
      | exact (cmpNat_gt_of (by omega)).symm

/-- Numeric sort key for `cmpScored`: score descending then earliest
year ascending. -/
def skey (a : ScoredResult) : Int :=
  -a.priorityScore * 16384 + (getEarliestYear (a.recording.releases.getD []) : Int)

theorem cmpScored_eq_key (a b : ScoredResult) :
    cmpScored a b = cmpInt (skey a) (skey b) := by
  have ha := getEarliestYear_lt (a.recording.releases.getD [])
  have hb := getEarliestYear_lt (b.recording.releases.getD [])
  unfold cmpScored skey
  rcases lt_trichotomy a.priorityScore b.priorityScore with h | h | h
  · rw [cmpInt_gt_of h]
    exact (cmpInt_gt_of (by push_cast; nlinarith)).symm
  · rw [h]
    have hself : cmpInt b.priorityScore b.priorityScore = .eq := by
      unfold cmpInt
      split_ifs <;> first | rfl | omega
    rw [hself]
    exact cmpNat_eq_cmpInt_add _ _ _
  · rw [cmpInt_lt_of h]
    exact (cmpInt_lt_of (by push_cast; nlinarith)).symm

theorem cmpScored_hswap (x y : ScoredResult) :
    cmpScored x y = .gt → cmpScored y x ≠ .gt := by
  rw [cmpScored_eq_key, cmpScored_eq_key, cmpInt_eq_gt, Ne, cmpInt_eq_gt]
  omega

theorem cmpScored_htrans (x y z : ScoredResult) :
    cmpScored x y ≠ .gt → cmpScored y z ≠ .gt → cmpScored x z ≠ .gt := by
  rw [cmpScored_eq_key, cmpScored_eq_key, cmpScored_eq_key, Ne, Ne, Ne,
    cmpInt_eq_gt, cmpInt_eq_gt, cmpInt_eq_gt]
  omega

/-- The output of `sortResults` is sorted by descending priority score:
any earlier entry scores at least as high as any later entry. -/
theorem sortResults_score_desc (results : List Recording) (searchArtist : String)
    (i j : Nat) (hi : i < (sortResults results searchArtist).length)
    (hj : j < (sortResults results searchArtist).length) (hij : i < j) :
    ((sortResults results searchArtist).get ⟨j, hj⟩).priorityScore ≤
      ((sortResults results searchArtist).get ⟨i, hi⟩).priorityScore := by
  have hp : (sortResults results searchArtist).Pairwise fun a b => cmpScored a b ≠ .gt := by
    unfold sortResults
    exact pairwise_sortCmp cmpScored (fun _ => True)
      (fun a b _ _ => cmpScored_hswap a b)
      (fun a b c _ _ _ => cmpScored_htrans a b c)
      _ (fun _ _ => trivial)
  have hij2 := List.pairwise_iff_getElem.mp hp i j hi hj hij
  rw [cmpScored_eq_key, Ne, cmpInt_eq_gt] at hij2
  have b1 := getEarliestYear_lt
    (((sortResults results searchArtist).get ⟨i, hi⟩).recording.releases.getD [])
  have b2 := getEarliestYear_lt
    (((sortResults results searchArtist).get ⟨j, hj⟩).recording.releases.getD [])
  unfold skey at hij2
  rw [List.get_eq_getElem, List.get_eq_getElem]
  simp only [List.get_eq_getElem] at b1 b2
  nlinarith [hij2, b1, b2]

theorem cmpRelease_hswap (x y : Release)
    (hx : (yearOf (bestDateStr x)).isSome) (hy : (yearOf (bestDateStr y)).isSome) :
    cmpRelease x y = .gt → cmpRelease y x ≠ .gt := by
  rw [cmpRelease_eq_key x y hx hy, cmpRelease_eq_key y x hy hx, cmpNat_eq_gt, Ne,
    cmpNat_eq_gt]
  omega

theorem cmpRelease_htrans (x y z : Release)
    (hx : (yearOf (bestDateStr x)).isSome) (hy : (yearOf (bestDateStr y)).isSome)
    (hz : (yearOf (bestDateStr z)).isSome) :
    cmpRelease x y ≠ .gt → cmpRelease y z ≠ .gt → cmpRelease x z ≠ .gt := by
  rw [cmpRelease_eq_key x y hx hy, cmpRelease_eq_key y z hy hz,
    cmpRelease_eq_key x z hx hz, Ne, Ne, Ne, cmpNat_eq_gt, cmpNat_eq_gt, cmpNat_eq_gt]
  omega

/-! ## Spec-side definitions for the claims -/

/-- Compilation detection as the specification words it for best-release
selection: the title keyword/pattern rule of step 5 alone (without the
secondary-type test the code also applies). -/
def specIsCompilationRel (r : Release) : Bool :=
  decide (0 < detectCompilation r.title)

/-- The best-release comparator exactly as the specification describes
it: criterion (c) uses `specIsCompilationRel` instead of
`isCompilationRel`. -/
def cmpReleaseSpec (a b : Release) : Ordering :=
  (cmpBoolDesc (a.status == some "Official") (b.status == some "Official")).then
  ((cmpBoolDesc (a.primaryType == some "Album") (b.primaryType == some "Album")).then
  ((cmpBoolAsc (specIsCompilationRel a) (specIsCompilationRel b)).then
  (cmpRelYear a b)))

/-- Best-release selection following the specification's order. -/
def specBestRelease (releases : List Release) : Option Release :=
  (sortCmp cmpReleaseSpec releases).head?

/-- Release used by the C3 counterexample: an Official Album marked
`Compilation` only through its secondary types, carrying the earlier
date. -/
def relC3A : Release :=
  { title := "Red", status := some "Official", primaryType := some "Album",
    secondaryTypes := some ["Compilation"], firstReleaseDate := some "1970" }

/-- Release used by the C3 counterexample: an ordinary Official Album
with the later date. -/
def relC3B : Release :=
  { title := "Blue", status := some "Official", primaryType := some "Album",
    firstReleaseDate := some "1980" }

/-- C3: the claim's best-release order is refuted on the code: with a
release marked Compilation only in its secondary types (no title
keyword), the code prefers the other release while the claimed order —
criterion (c) being the title rule of step 5 alone — prefers the
secondary-typed one for its earlier date. -/
theorem C3_best_release_counterexample :
    findBestRelease [relC3A, relC3B] = some relC3B ∧
    specBestRelease [relC3A, relC3B] = some relC3A ∧
    relC3A ≠ relC3B := by
  refine ⟨?_, ?_, ?_⟩ <;> decide

/-- C3 (amended): `findBestRelease` deterministically returns a release
of the list (`none` exactly on the empty list) that is maximal under the
lexicographic order (a) Official first, (b) Album first, (c)
non-compilation first where compilation detection is the secondary-type
test *or* the title rule (`isCompilationRel`), (d) earlier date first
with a missing date read as 2099 — provided every release date parses,
since an unparseable date makes the code's comparator inconsistent. -/
theorem C3_best_release_corrected :
    ∀ rs : List Release,
      (findBestRelease rs = none ↔ rs = []) ∧
      (∀ r, findBestRelease rs = some r →
        (∀ s ∈ rs, (yearOf (bestDateStr s)).isSome) →
        r ∈ rs ∧ ∀ s ∈ rs, cmpRelease r s ≠ .gt) := by
  intro rs
  constructor
  · unfold findBestRelease
    rw [List.head?_eq_none_iff]
    constructor
    · intro h
      have := (perm_sortCmp cmpRelease rs).length_eq
      rw [h] at this
      exact List.length_eq_zero.mp this.symm
    · intro h
      subst h
      rfl
  · intro r hr hwd
    unfold findBestRelease at hr
    cases hsort : sortCmp cmpRelease rs with
    | nil =>
      rw [hsort] at hr
      cases hr
    | cons a t =>
      rw [hsort] at hr
      injection hr with har
      subst har
      have hrm : a ∈ sortCmp cmpRelease rs := by
        rw [hsort]
        exact List.mem_cons_self a t
      have hrs : a ∈ rs := (perm_sortCmp cmpRelease rs).mem_iff.mp hrm
      refine ⟨hrs, ?_⟩
      have hp : (sortCmp cmpRelease rs).Pairwise fun a b => cmpRelease a b ≠ .gt :=
        pairwise_sortCmp cmpRelease (fun s => (yearOf (bestDateStr s)).isSome = true)
          (fun x y hx hy => cmpRelease_hswap x y hx hy)
          (fun x y z hx hy hz => cmpRelease_htrans x y z hx hy hz)
          rs (fun x hx => hwd x hx)
      rw [hsort, List.pairwise_cons] at hp
      intro s hs
      have hsm : s ∈ sortCmp cmpRelease rs := (perm_sortCmp cmpRelease rs).mem_iff.mpr hs
      rw [hsort] at hsm
      rcases List.mem_cons.mp hsm with h | h
      · rw [h]
        rw [cmpRelease_eq_key a a (hwd a hrs) (hwd a hrs), Ne, cmpNat_eq_gt]
        omega
      · exact hp.1 s h

/-- C3 witness: on a concrete two-release list the selected release is a
member and is weakly preferred to both releases. -/
theorem C3_best_release_witness :
    (findBestRelease [relC3B, relC3A] = some relC3B ∧
     relC3B ∈ [relC3B, relC3A] ∧ ∀ s ∈ [relC3B, relC3A], cmpRelease relC3B s ≠ .gt) := by
  have h := (C3_best_release_corrected [relC3B, relC3A]).2 relC3B (by decide) (by decide)
  exact ⟨by decide, h.1, h.2⟩

/-- Permutation relation between two optional release lists: both absent,
or both present with the same elements (possibly reordered). -/
def relsPerm : Option (List Release) → Option (List Release) → Prop
  | none, none => True
  | some a, some b => List.Perm a b
  | _, _ => False

/-- Candidate used by the C9 counterexample: an artist-matching recording
whose releases list starts with a Bootleg release followed by an Official
one, so the in-place best-release sort reorders it. -/
def c9cand : Recording :=
  { id := "c9", title := "Song",
    artistCredit := some [{ name := "beatles" }],
    releases := some [{ title := "A", status := some "Bootleg" },
                      { title := "B", status := some "Official" }] }

/-- C9: the claim that `rank` leaves every input candidate unchanged —
in particular each candidate's releases list in its original order — is
refuted: ranking this candidate reorders its releases array in place. -/
theorem C9_rank_pure_counterexample :
    rankPostState [c9cand] "beatles" ≠ [c9cand] := by
  decide

/-- C9 (amended): `rank` never adds or removes candidates or releases
and never touches any other field, but it does sort each present
releases array in place (via `findBestRelease`) for candidates that pass
the artist gate: after the call each input candidate carries the same
releases up to reordering, with every other field unchanged. -/
theorem C9_rank_pure_corrected :
    ∀ (results : List Recording) (searchArtist : String),
      List.Forall₂ (fun p q : Recording =>
        p.id = q.id ∧ p.title = q.title ∧ p.length = q.length ∧
        p.disambiguation = q.disambiguation ∧ p.artistCredit = q.artistCredit ∧
        p.relations = q.relations ∧ relsPerm p.releases q.releases)
        (rankPostState results searchArtist) results := by
  intro results searchArtist
  unfold rankPostState
  rw [List.forall₂_map_left_iff, List.forall₂_same]
  intro rec _
  unfold recAfterScoring rankReleasesAfter
  refine ⟨rfl, rfl, rfl, rfl, rfl, rfl, ?_⟩
  cases hrel : rec.releases with
  | none => exact trivial
  | some l =>
    show relsPerm
      (if hasArtistMatch rec searchArtist = true then some (sortCmp cmpRelease l)
       else some l) (some l)
    by_cases hm : hasArtistMatch rec searchArtist
    · rw [if_pos hm]
      exact perm_sortCmp cmpRelease l
    · rw [if_neg hm]
      exact List.Perm.refl l

/-! ## The canonical six-candidate fixture (specification §8, P3) -/

/-- Builder for the fixture: a "Come Together" recording credited to
The Beatles holding exactly one release. -/
def mkFixtureCand (i : String) (rel : Release) : Recording :=
  { id := i, title := "Come Together",
    artistCredit := some [{ name := "The Beatles", artist := some { name := "The Beatles" } }],
    releases := some [rel] }

/-- Fixture candidate: Abbey Road, Official Album, 1969. -/
def fixAbbey : Recording := mkFixtureCand "r1"
  { title := "Abbey Road", status := some "Official", primaryType := some "Album",
    firstReleaseDate := some "1969-09-26" }

/-- Fixture candidate: the original single, Official Single, 1969. -/
def fixSingle : Recording := mkFixtureCand "r2"
  { title := "Come Together / Something", status := some "Official",
    primaryType := some "Single", firstReleaseDate := some "1969-10-06" }

/-- Fixture candidate: 1962-1966, Official Album with secondary type
Compilation, 1973. -/
def fixRed : Recording := mkFixtureCand "r3"
  { title := "1962-1966", status := some "Official", primaryType := some "Album",
    secondaryTypes := some ["Compilation"], firstReleaseDate := some "1973-04-19" }

/-- Fixture candidate: The Beatles Greatest Hits, Official Album, 1982. -/
def fixHits : Recording := mkFixtureCand "r4"
  { title := "The Beatles Greatest Hits", status := some "Official",
    primaryType := some "Album", firstReleaseDate := some "1982-01-01" }

/-- Fixture candidate: Live at the BBC, Official Album with secondary
type Live, 1994. -/
def fixBBC : Recording := mkFixtureCand "r5"
  { title := "Live at the BBC", status := some "Official", primaryType := some "Album",
    secondaryTypes := some ["Live"], firstReleaseDate := some "1994-11-30" }

/-- Fixture candidate: Unreleased Sessions, Bootleg Album, 1969. -/
def fixBoot : Recording := mkFixtureCand "r6"
  { title := "Unreleased Sessions", status := some "Bootleg",
    primaryType := some "Album", firstReleaseDate := some "1969-01-01" }

/-- The six-candidate fixture in upstream order. -/
def sixFixture : List Recording :=
  [fixAbbey, fixSingle, fixRed, fixHits, fixBBC, fixBoot]

/-- Best-release title and priority score of each ranked fixture entry. -/
def fixtureOutcome : List (Option String × Int) :=
  (sortResults sixFixture "The Beatles").map fun s =>
    (s.bestRelease.map Release.title, s.priorityScore)

/-- C1: the claimed ranking of the fixture is refuted: the code places
1962-1966 above Unreleased Sessions and produces the scores 2400, 2200,
2000, 1700, 1500, 1300 (each claimed score is off — the popular-artist
bonus applies to every candidate and both live keywords of "Live at the
BBC" and of "Unreleased Sessions" are counted). -/
theorem C1_fixture_counterexample :
    fixtureOutcome ≠
      [(some "Abbey Road", 2300), (some "Come Together / Something", 2100),
       (some "The Beatles Greatest Hits", 1900), (some "Live at the BBC", 1750),
       (some "Unreleased Sessions", 1500), (some "1962-1966", 1400)] := by
  decide

/-- C1 (amended): ranking the fixture with search artist "The Beatles"
returns Abbey Road, Come Together / Something, The Beatles Greatest
Hits, Live at the BBC, 1962-1966, Unreleased Sessions with priority
scores 2400, 2200, 2000, 1700, 1500, 1300. -/
theorem C1_fixture_corrected :
    fixtureOutcome =
      [(some "Abbey Road", 2400), (some "Come Together / Something", 2200),
       (some "The Beatles Greatest Hits", 2000), (some "Live at the BBC", 1700),
       (some "1962-1966", 1500), (some "Unreleased Sessions", 1300)] := by
  decide

/-! ## C2: the artist-mismatch floor -/

/-- Case-insensitive substring containment exactly as the claim words
it: the needle is lowercased but *not* trimmed. -/
def containsCI (hay pat : String) : Bool :=
  isInfixL (lowerL pat.toList) (lowerL hay.toList)

/-- The claim's hypothesis, amended to the code's normalization: no
recording-level credit (name or artist-object name) and no
release-level credit name contains the lowercased **and trimmed** search
artist as a substring of its lowercased form. -/
def noArtistMatchSpec (rec : Recording) (searchArtist : String) : Bool :=
  let q := trimL (lowerL searchArtist.toList)
  ((rec.artistCredit.getD []).all fun credit =>
    !(isInfixL q (lowerL credit.name.toList)) &&
    (match credit.artist with
     | some a => !(isInfixL q (lowerL a.name.toList))
     | none => true)) &&
  ((rec.releases.getD []).all fun release =>
    (release.artistCredit.getD []).all fun credit =>
      !(isInfixL q (lowerL credit.name.toList)))

theorem hasArtistMatch_eq_false_of_spec (rec : Recording) (sa : String)
    (h : sa ≠ "") (hs : noArtistMatchSpec rec sa = true) :
    hasArtistMatch rec sa = false := by
  unfold noArtistMatchSpec at hs
  unfold hasArtistMatch
  rw [if_neg h]
  simp only [Bool.and_eq_true, List.all_eq_true] at hs
  obtain ⟨h1, h2⟩ := hs
  rw [Bool.or_eq_false_iff]
  constructor
  · rw [List.any_eq_false]
    intro credit hc
    have hcred := h1 credit hc
    simp only [Bool.and_eq_true, Bool.not_eq_true'] at hcred
    obtain ⟨hn, ha⟩ := hcred
    rw [Bool.not_eq_true, Bool.or_eq_false_iff]
    refine ⟨hn, ?_⟩
    cases hart : credit.artist with
    | none => rfl
    | some a =>
      rw [hart] at ha
      simp only [Bool.not_eq_true'] at ha
      exact ha
  · rw [List.any_eq_false]
    intro release hr
    rw [Bool.not_eq_true, List.any_eq_false]
    intro credit hc
    rw [Bool.not_eq_true]
    have hcred := h2 release hr credit hc
    simp only [Bool.not_eq_true'] at hcred
    exact hcred

/-- The recording of the C2 counterexample: a single credited performer
"x" and no releases. -/
def c2cand : Recording :=
  { id := "c2", title := "Song", artistCredit := some [{ name := "x" }] }

/-- C2: the claim as stated — with containment of the *untrimmed* search
artist — is refuted: with search artist `" x"` (non-empty) no credit
contains `" x"` as a case-insensitive substring, yet the code trims the
search artist before matching, finds a match, and scores 1100 instead of
50. -/
theorem C2_mismatch_floor_counterexample :
    containsCI "x" " x" = false ∧ (" x" : String) ≠ "" ∧
    (calculatePriorityScore c2cand " x").score = 1100 := by
  refine ⟨?_, ?_, ?_⟩ <;> decide

/-- C2 (amended): a candidate none of whose credits contains the
lowercased, **trimmed** search artist scores exactly 50 with rationale
"No artist match", independently of its release metadata; and the
ranked output is sorted by non-increasing priority score, so such a
candidate is ordered after every candidate whose final clamped score
exceeds 50 (a matching candidate whose keyword penalties drive its
clamped score to 50 or below can still tie with or fall below the
floor). -/
theorem C2_mismatch_floor_corrected :
    (∀ (rec : Recording) (sa : String), sa ≠ "" → noArtistMatchSpec rec sa = true →
      (calculatePriorityScore rec sa).score = 50 ∧
      (calculatePriorityScore rec sa).reason = "No artist match") ∧
    (∀ (results : List Recording) (sa : String) (i j : Nat)
      (hi : i < (sortResults results sa).length)
      (hj : j < (sortResults results sa).length), i < j →
      ((sortResults results sa).get ⟨j, hj⟩).priorityScore ≤
        ((sortResults results sa).get ⟨i, hi⟩).priorityScore) := by
  constructor
  · intro rec sa hne hs
    have hm := hasArtistMatch_eq_false_of_spec rec sa hne hs
    unfold calculatePriorityScore
    rw [if_pos hm]
    exact ⟨rfl, rfl⟩
  · intro results sa i j hi hj hij
    exact sortResults_score_desc results sa i j hi hj hij

/-- C2 witness: the concrete non-matching candidate scores exactly 50
against search artist "The Beatles", and in a concrete two-candidate
ranking the later entry scores no more than the earlier one. -/
theorem C2_mismatch_floor_witness :
    ("The Beatles" : String) ≠ "" ∧
    noArtistMatchSpec c2cand "The Beatles" = true ∧
    (calculatePriorityScore c2cand "The Beatles").score = 50 ∧
    (calculatePriorityScore c2cand "The Beatles").reason = "No artist match" ∧
    (0 : Nat) < 1 ∧
    ((sortResults [fixAbbey, c2cand] "The Beatles").get
        ⟨1, by decide⟩).priorityScore ≤
      ((sortResults [fixAbbey, c2cand] "The Beatles").get
        ⟨0, by decide⟩).priorityScore := by
  refine ⟨by decide, by decide, ?_, ?_, by decide, ?_⟩
  · exact (C2_mismatch_floor_corrected.1 c2cand "The Beatles" (by decide) (by decide)).1
  · exact (C2_mismatch_floor_corrected.1 c2cand "The Beatles" (by decide) (by decide)).2
  · exact C2_mismatch_floor_corrected.2 [fixAbbey, c2cand] "The Beatles" 0 1
      (by decide) (by decide) (by decide)

/-! ## C5: TTL classification -/

/-- C5: the claim that the TTL policy uses the same 16-entry popularity
allow-list as ranking step 7 is refuted: "nirvana" is on the ranking
list but `calculateSearchTTL` classifies it as standard (6 hours, not
24). -/
theorem C5_ttl_counterexample :
    ("nirvana" : String) ∈ POPULAR_ARTISTS ∧
    calculateSearchTTL "nirvana" = 21600 ∧ (21600 : Nat) ≠ 86400 := by
  refine ⟨?_, ?_, ?_⟩ <;> decide

/-- C5 (amended): `calculateSearchTTL` lowercases and trims the artist
name and returns the 24-hour TTL exactly for members of its own 12-entry
list — the first 12 entries of the ranking allow-list, i.e. without
"nirvana", "u2", "the who" and "ac/dc" — and the 6-hour TTL otherwise;
case and whitespace variants of "the beatles" classify as popular, and
an unlisted artist as standard. -/
theorem C5_ttl_corrected :
    (∀ artist : String,
      calculateSearchTTL artist =
        if TTL_POPULAR_ARTISTS.contains (trimL (lowerL artist.toList)).asString
        then 86400 else 21600) ∧
    TTL_POPULAR_ARTISTS = POPULAR_ARTISTS.take 12 ∧
    calculateSearchTTL "The Beatles" = 86400 ∧
    calculateSearchTTL "  tHe BeAtLeS  " = 86400 ∧
    calculateSearchTTL "Some Random Indie Band" = 21600 := by
  refine ⟨?_, by decide, by decide, by decide, by decide⟩
  intro artist
  unfold calculateSearchTTL
  by_cases h : TTL_POPULAR_ARTISTS.contains (trimL (lowerL artist.toList)).asString
  · rw [if_pos h]
  · rw [if_neg h]

/-! ## C7 / C8: key generation -/

theorem toList_asString (cs : List Char) : (List.asString cs).toList = cs := rfl

theorem mem_collapseWSAux (rep : Char) :
    ∀ (flag : Bool) (cs : List Char) (c : Char),
      c ∈ collapseWSAux rep flag cs → c = rep ∨ c ∈ cs := by
  intro flag cs
  induction cs generalizing flag with
  | nil =>
    intro c hc
    cases hc
  | cons x t ih =>
    intro c hc
    unfold collapseWSAux at hc
    by_cases hx : isWS x
    · rw [if_pos hx] at hc
      by_cases hflag : flag = true
      · rw [if_pos hflag] at hc
        rcases ih true c hc with h | h
        · exact Or.inl h
        · exact Or.inr (List.mem_cons_of_mem x h)
      · rw [if_neg hflag] at hc
        rcases List.mem_cons.mp hc with h | h
        · exact Or.inl h
        · rcases ih true c h with h2 | h2
          · exact Or.inl h2
          · exact Or.inr (List.mem_cons_of_mem x h2)
    · rw [if_neg hx] at hc
      rcases List.mem_cons.mp hc with h | h
      · exact Or.inr (by rw [h]; exact List.mem_cons_self x t)
      · rcases ih false c h with h2 | h2
        · exact Or.inl h2
        · exact Or.inr (List.mem_cons_of_mem x h2)

theorem isInfixL_singleton (c : Char) (l : List Char) :
    isInfixL [c] l = true ↔ c ∈ l := by
  induction l with
  | nil => simp [isInfixL, List.isEmpty]
  | cons x t ih =>
    unfold isInfixL
    simp only [Bool.or_eq_true, ih, List.mem_cons]
    unfold isPrefixL
    constructor
    · rintro (h | h)
      · left
        have h2 := ((Bool.and_eq_true _ _).mp h).1
        exact beq_iff_eq.mp h2
      · exact Or.inr h
    · rintro (h | h)
      · left
        rw [Bool.and_eq_true]
        exact ⟨beq_iff_eq.mpr h, rfl⟩
      · exact Or.inr h

/-- Normalized search terms never contain the `:` namespace separator:
the `[^a-z0-9\s]` strip removes it and whitespace collapse only inserts
underscores. -/
theorem normalizeSearchTerm_no_colon (s : String) :
    strIncludes (normalizeSearchTerm s) ":" = false := by
  unfold strIncludes normalizeSearchTerm
  rw [toList_asString]
  by_cases h : isInfixL (":".toList)
      (collapseWSAux '_' false
        ((trimL (lowerL s.toList)).filter fun c => isLowerAlnum c || isWS c)) = true
  · exfalso
    have hmem : ':' ∈ collapseWSAux '_' false
        ((trimL (lowerL s.toList)).filter fun c => isLowerAlnum c || isWS c) := by
      have : (":".toList : List Char) = [':'] := rfl
      rw [this, isInfixL_singleton] at h
      exact h
    rcases mem_collapseWSAux '_' false _ ':' hmem with h2 | h2
    · cases h2
    · have := (List.mem_filter.mp h2).2
      cases this
  · exact Bool.not_eq_true _ ▸ h

/-- `generateSearchKey` always succeeds on inputs within the length cap,
returning the `search:<artist>:<song>` key. -/
theorem generateSearchKey_ok (artist song : String)
    (ha : artist.length ≤ 200) (hs : song.length ≤ 200) :
    generateSearchKey artist song =
      .ok ("search:" ++ normalizeSearchTerm artist ++ ":" ++ normalizeSearchTerm song) := by
  unfold generateSearchKey
  have h1 : (decide (200 < artist.length) || decide (200 < song.length)) = false := by
    simp only [Bool.or_eq_false_iff, decide_eq_false_iff_not]
    omega
  rw [if_neg (by rw [h1]; exact Bool.false_ne_true)]
  have h2 : (strIncludes (normalizeSearchTerm artist) ":" ||
      strIncludes (normalizeSearchTerm song) ":") = false := by
    rw [Bool.or_eq_false_iff]
    exact ⟨normalizeSearchTerm_no_colon artist, normalizeSearchTerm_no_colon song⟩
  rw [if_neg (by rw [h2]; exact Bool.false_ne_true)]

deriving instance DecidableEq for Except

/-- The 202-character artist input of the C7 counterexample: "ab" padded
with 200 trailing spaces, which normalizes to the same term as "ab". -/
def c7long : String := String.mk ('a' :: 'b' :: List.replicate 200 ' ')

set_option maxRecDepth 4000 in
/-- C7: the unrestricted claim — any two pairs agreeing after
normalization produce the identical key — is refuted at the 200-character
input cap: "ab" and its 202-character space-padded variant normalize
identically, yet the padded variant makes `makeSearchKey` fail with
`InputTooLong` instead of producing the same key. -/
theorem C7_key_invariance_counterexample :
    normalizeSearchTerm "ab" = normalizeSearchTerm c7long ∧
    generateSearchKey "ab" "cd" ≠ generateSearchKey c7long "cd" := by
  constructor
  · decide
  · intro h
    rw [generateSearchKey_ok "ab" "cd" (by decide) (by decide)] at h
    have hlong : generateSearchKey c7long "cd" = .error .inputTooLong := by decide
    rw [hlong] at h
    cases h

/-- C7 (amended): for inputs within the 200-character cap, the search
key depends only on the normalized terms — any two artist/song pairs
that agree after lowercasing, trimming, stripping characters outside
`[a-z0-9 ]` and collapsing whitespace runs (`normalizeSearchTerm`)
produce the identical cache key. -/
theorem C7_key_invariance_corrected :
    ∀ a1 s1 a2 s2 : String,
      a1.length ≤ 200 → s1.length ≤ 200 → a2.length ≤ 200 → s2.length ≤ 200 →
      normalizeSearchTerm a1 = normalizeSearchTerm a2 →
      normalizeSearchTerm s1 = normalizeSearchTerm s2 →
      generateSearchKey a1 s1 = generateSearchKey a2 s2 := by
  intro a1 s1 a2 s2 h1 h2 h3 h4 hna hns
  rw [generateSearchKey_ok a1 s1 h1 h2, generateSearchKey_ok a2 s2 h3 h4, hna, hns]

/-- C7 witness: the specification's P1 instance —
`makeSearchKey("The Beatles", "Come Together")` equals
`makeSearchKey(" the BEATLES ", "come    together!!")`. -/
theorem C7_key_invariance_witness :
    ("The Beatles" : String).length ≤ 200 ∧
    normalizeSearchTerm "The Beatles" = normalizeSearchTerm " the BEATLES " ∧
    normalizeSearchTerm "Come Together" = normalizeSearchTerm "come    together!!" ∧
    generateSearchKey "The Beatles" "Come Together" =
      generateSearchKey " the BEATLES " "come    together!!" := by
  refine ⟨by decide, by decide, by decide, ?_⟩
  exact C7_key_invariance_corrected "The Beatles" "Come Together"
    " the BEATLES " "come    together!!"
    (by decide) (by decide) (by decide) (by decide) (by decide) (by decide)

/-- C8: `generateSearchKey` fails with `InputTooLong` precisely when an
input exceeds 200 characters (checked before any key is built), would
fail with `InvalidCharacters` on a normalized term containing `:` (a
branch the normalizer makes unreachable), and otherwise succeeds with
the `search:<normalized-artist>:<normalized-song>` key. -/
theorem C8_key_validation :
    ∀ artist song : String,
      if 200 < artist.length ∨ 200 < song.length then
        generateSearchKey artist song = .error .inputTooLong
      else if strIncludes (normalizeSearchTerm artist) ":" = true ∨
              strIncludes (normalizeSearchTerm song) ":" = true then
        generateSearchKey artist song = .error .invalidCharacters
      else
        generateSearchKey artist song =
          .ok ("search:" ++ normalizeSearchTerm artist ++ ":" ++ normalizeSearchTerm song) := by
  intro artist song
  split_ifs with h1 h2
  · unfold generateSearchKey
    rw [if_pos]
    rcases h1 with h | h
    · simp [h]
    · simp [h]
  · exfalso
    rcases h2 with h | h
    · rw [normalizeSearchTerm_no_colon artist] at h
      cases h
    · rw [normalizeSearchTerm_no_colon song] at h
      cases h
  · exact generateSearchKey_ok artist song (by omega) (by omega)

set_option maxRecDepth 4000 in
/-- C8 witness: a 201-character artist fails with `InputTooLong`, and a
normal pair produces the namespaced normalized key. -/
theorem C8_key_validation_witness :
    generateSearchKey (String.mk (List.replicate 201 'a')) "x" = .error .inputTooLong ∧
    generateSearchKey "The Beatles" "Come Together" = .ok "search:the_beatles:come_together" := by
  constructor
  · have h := C8_key_validation (String.mk (List.replicate 201 'a')) "x"
    rw [if_pos (Or.inl (by decide))] at h
    exact h
  · have h := C8_key_validation "The Beatles" "Come Together"
    rw [if_neg (by decide), if_neg (by decide)] at h
    rw [h]
    decide


/-! ## C6: the provisional songwriter fill -/

theorem creditsStep_no_writer (c : Credits) (rel : Relation)
    (h : isWriterType rel.type = false) :
    (creditsStep (c, false) rel).2 = false ∧
    (creditsStep (c, false) rel).1.songwriters = c.songwriters := by
  simp only [creditsStep]
  by_cases ht : rel.type ≠ ""
  · rw [if_pos ht]
    cases ha : rel.artist with
    | none => exact ⟨rfl, rfl⟩
    | some a =>
      simp only [h, Bool.false_eq_true, if_false]
      split_ifs <;> exact ⟨rfl, rfl⟩
  · rw [if_neg ht]
    exact ⟨rfl, rfl⟩

theorem creditsFold_no_writer (rels : List Relation)
    (h : ∀ rel ∈ rels, isWriterType rel.type = false) :
    ∀ c : Credits,
      (rels.foldl creditsStep (c, false)).2 = false ∧
      (rels.foldl creditsStep (c, false)).1.songwriters = c.songwriters := by
  induction rels with
  | nil => exact fun c => ⟨rfl, rfl⟩
  | cons rel t ih =>
    intro c
    have hrel := h rel (List.mem_cons_self rel t)
    have ht := fun r hr => h r (List.mem_cons_of_mem rel hr)
    obtain ⟨s1, s2⟩ := creditsStep_no_writer c rel hrel
    rw [List.foldl_cons]
    rcases hstep : creditsStep (c, false) rel with ⟨c2, f⟩
    rw [hstep] at s1 s2
    simp only at s1 s2
    subst s1
    have hrest := ih ht c2
    refine ⟨hrest.1, ?_⟩
    rw [hrest.2, s2]

/-- Songwriter entry contributed provisionally by a credited performer. -/
def assumedSongwriter (a : ArtistRef) : CreditEntry :=
  { name := a.name, role := "Artist (assumed songwriter)", attributes := some "performer" }

theorem performerFold_songwriters (credits : List ArtistCredit) :
    ∀ acc : Credits,
      (credits.foldl performerCreditsStep acc).songwriters =
        acc.songwriters ++
          credits.filterMap (fun ac => ac.artist.map assumedSongwriter) := by
  induction credits with
  | nil =>
    intro acc
    simp
  | cons ac t ih =>
    intro acc
    rw [List.foldl_cons, List.filterMap_cons, ih]
    cases ha : ac.artist with
    | none =>
      simp [performerCreditsStep, ha]
    | some a =>
      simp [performerCreditsStep, ha, assumedSongwriter]

theorem filterMap_artistMap_length (g : ArtistRef → CreditEntry) :
    ∀ l : List ArtistCredit, (∀ ac ∈ l, ac.artist.isSome) →
      (l.filterMap fun ac => ac.artist.map g).length = l.length := by
  intro l
  induction l with
  | nil => intro _; rfl
  | cons ac t ih =>
    intro h
    obtain ⟨a, ha⟩ := Option.isSome_iff_exists.mp (h ac (List.mem_cons_self ac t))
    rw [List.filterMap_cons, ha]
    simp only [Option.map_some']
    rw [List.length_cons, ih (fun x hx => h x (List.mem_cons_of_mem ac hx))]
    rfl

/-- Songwriter entry after the final provisional relabelling. -/
def likelySongwriter (a : ArtistRef) : CreditEntry :=
  { name := a.name, role := "Performer (likely songwriter)", attributes := some "performer" }

theorem creditsStep_composer (c : Credits) (y : String) :
    creditsStep (c, false) { type := "composer", artist := some { name := y } } =
      ({ c with songwriters := [{ name := y, role := "composer" }] }, true) := rfl

/-- C6 (confirmed): with at least one credited performer (each carrying
an artist object) and no composer/lyricist/writer-typed relationship,
the songwriter bucket is exactly the credited performers labelled
`Performer (likely songwriter)` (one entry per performer); extending the
same candidate with one explicit composer relationship for an artist
named `y` discards every provisional entry, leaving only
`{name := y, role := "composer"}`. -/
theorem C6_provisional_songwriters :
    ∀ (r : Recording) (y : String),
      (r.artistCredit.getD []) ≠ [] →
      (∀ ac ∈ r.artistCredit.getD [], ac.artist.isSome) →
      (∀ rel ∈ r.relations.getD [], isWriterType rel.type = false) →
      ((extractBasicCredits r).songwriters =
        (r.artistCredit.getD []).filterMap
          (fun ac => ac.artist.map likelySongwriter) ∧
       (extractBasicCredits r).songwriters.length = (r.artistCredit.getD []).length ∧
       (extractBasicCredits
          { r with relations := some ((r.relations.getD []) ++
              [{ type := "composer", artist := some { name := y } }]) }).songwriters =
         [{ name := y, role := "composer" }]) := by
  intro r y hne hsome hnw
  have hinit := performerFold_songwriters (r.artistCredit.getD []) {}
  have hinit2 : ((r.artistCredit.getD []).foldl performerCreditsStep {}).songwriters =
      (r.artistCredit.getD []).filterMap (fun ac => ac.artist.map assumedSongwriter) := by
    rw [hinit]
    rfl
  have hfold := creditsFold_no_writer (r.relations.getD []) hnw
    ((r.artistCredit.getD []).foldl performerCreditsStep {})
  have hlen := filterMap_artistMap_length assumedSongwriter (r.artistCredit.getD []) hsome
  have hnonempty : ((r.artistCredit.getD []).filterMap
      (fun ac => ac.artist.map assumedSongwriter)).isEmpty = false := by
    rw [List.isEmpty_eq_false]
    intro hcon
    have hL := congrArg List.length hcon
    rw [hlen] at hL
    exact hne (List.length_eq_zero.mp hL)
  have hmain : (extractBasicCredits r).songwriters =
      (r.artistCredit.getD []).filterMap (fun ac => ac.artist.map likelySongwriter) := by
    simp only [extractBasicCredits]
    rw [hfold.1, hfold.2, hinit2, hnonempty]
    rw [if_pos (by decide)]
    show ((r.artistCredit.getD []).filterMap
        (fun ac => ac.artist.map assumedSongwriter)).map
        (fun sw => { sw with role := "Performer (likely songwriter)" }) = _
    rw [List.map_filterMap]
    congr 1
    funext ac
    rw [Option.map_map]
    congr 1
  refine ⟨hmain, ?_, ?_⟩
  · rw [hmain, filterMap_artistMap_length likelySongwriter (r.artistCredit.getD []) hsome]
  · simp only [extractBasicCredits]
    have hrel2 : ({ r with relations := some ((r.relations.getD []) ++
        [{ type := "composer", artist := some { name := y } }]) } : Recording).relations.getD [] =
        (r.relations.getD []) ++ [{ type := "composer", artist := some { name := y } }] := rfl
    have hac2 : ({ r with relations := some ((r.relations.getD []) ++
        [{ type := "composer", artist := some { name := y } }]) } : Recording).artistCredit =
        r.artistCredit := rfl
    rw [hrel2, hac2, List.foldl_append]
    rcases hf : (r.relations.getD []).foldl creditsStep
        ((r.artistCredit.getD []).foldl performerCreditsStep {}, false) with ⟨c2, f⟩
    rw [hf] at hfold
    simp only at hfold
    obtain ⟨hfalse, _⟩ := hfold
    subst hfalse
    rw [List.foldl_cons, List.foldl_nil, creditsStep_composer]
    rfl

/-- Candidate for the C6 witness: one credited performer "X", no
relationship records. -/
def c6cand : Recording :=
  { id := "c6", title := "Song",
    artistCredit := some [{ name := "X", artist := some { name := "X" } }] }

/-- The C6 witness candidate extended with one explicit composer
relationship for "Y". -/
def c6ext : Recording :=
  { id := "c6", title := "Song",
    artistCredit := some [{ name := "X", artist := some { name := "X" } }],
    relations := some [{ type := "composer", artist := some { name := "Y" } }] }

/-- C6 witness: the concrete candidate yields the provisional
`Performer (likely songwriter)` entry for "X", and adding an explicit
composer relationship for "Y" replaces it entirely. -/
theorem C6_provisional_songwriters_witness :
    (c6cand.artistCredit.getD []) ≠ [] ∧
    (extractBasicCredits c6cand).songwriters =
      [{ name := "X", role := "Performer (likely songwriter)",
         attributes := some "performer" }] ∧
    (extractBasicCredits c6ext).songwriters =
      [{ name := "Y", role := "composer" }] := by
  have h := C6_provisional_songwriters c6cand "Y" (by decide) (by decide) (by decide)
  refine ⟨by decide, ?_, ?_⟩
  · rw [h.1]
    decide
  · exact h.2.2

/-! ## C4: graceful cache degradation -/

theorem redisGet_failing (env : CacheEnv α) (h : failingCache env) (k : String) :
    redisGet env k = none := by
  unfold redisGet
  by_cases hc : env.connected = false
  · rw [if_pos hc]
  · rcases h with h | ⟨hg, _, _⟩
    · exact absurd h hc
    · rw [if_neg hc, hg k]

theorem redisSet_failing (env : CacheEnv α) (h : failingCache env)
    (k : String) (v : α) (t : Option Nat) : redisSet env k v t = false := by
  unfold redisSet
  by_cases hc : env.connected = false
  · rw [if_pos hc]
  · rcases h with h | ⟨_, hs, _⟩
    · exact absurd h hc
    · rw [if_neg hc, hs k v t]

theorem redisDel_failing (env : CacheEnv α) (h : failingCache env) (k : String) :
    redisDel env k = false := by
  unfold redisDel
  by_cases hc : env.connected = false
  · rw [if_pos hc]
  · rcases h with h | ⟨_, _, hd⟩
    · exact absurd h hc
    · rw [if_neg hc, hd k]

/-- The merged upstream candidate list a cache-missing search hands to
the ranking engine. -/
def mbMergedResults (artist song : String) (limit : Nat)
    (resps : Nat → Except Unit (List Recording)) : List Recording :=
  match buildSearchQueries artist song with
  | .error _ => []
  | .ok queries => mbAttempts resps limit 0 queries []

/-- The response a cache-missing search produces: upstream candidates
ranked, transformed, truncated to `limit`, flagged uncached, with the
popularity TTL attached. -/
def freshSearchResponse (resps : Nat → Except Unit (List Recording))
    (artist song : String) (limit : Nat) : SearchResponse :=
  let enhancedResults :=
    transformResults (sortResults (mbMergedResults artist song (limit * 2) resps) artist)
  { results := enhancedResults.take limit, totalCount := enhancedResults.length,
    cached := false, cacheHit := false, cacheTtl := some (calculateSearchTTL artist) }

theorem buildSearchQueries_isOk (artist song : String)
    (ha : artist.length ≤ 200) (hs : song.length ≤ 200)
    (hne : sanitizeLuceneQuery artist ≠ "" ∨ sanitizeLuceneQuery song ≠ "") :
    ∃ qs, buildSearchQueries artist song = .ok qs := by
  simp only [buildSearchQueries]
  have hlen : (decide (200 < artist.length) || decide (200 < song.length)) = false := by
    simp only [Bool.or_eq_false_iff, decide_eq_false_iff_not]
    omega
  rw [if_neg (by rw [hlen]; exact Bool.false_ne_true)]
  split_ifs with h1 h2 h3
  · exact ⟨_, rfl⟩
  · exact ⟨_, rfl⟩
  · exact ⟨_, rfl⟩
  · exfalso
    rcases hne with h | h
    · exact h3 h
    · exact h2 h

/-- C4 (confirmed): with an unreachable cache store — never connected,
or every client operation raising — `get` is a miss, `set` and `delete`
report failure, no exception escapes any cache operation (each is a
total function whose client errors are absorbed by its catch branches),
and a full search still completes with the ranked, transformed,
truncated results, merely skipping the cache read and write. -/
theorem C4_cache_degradation :
    ∀ env : CacheEnv CachedSearch, failingCache env →
      (∀ k, redisGet env k = none) ∧
      (∀ (k : String) (v : CachedSearch) (t : Option Nat), redisSet env k v t = false) ∧
      (∀ k, redisDel env k = false) ∧
      (∀ (resps : Nat → Except Unit (List Recording)) (artist song : String) (limit : Nat),
        artist.length ≤ 200 → song.length ≤ 200 →
        (sanitizeLuceneQuery artist ≠ "" ∨ sanitizeLuceneQuery song ≠ "") →
        searchWithSmartPrioritization env resps artist song limit =
          .ok (freshSearchResponse resps artist song limit)) := by
  intro env hfail
  refine ⟨redisGet_failing env hfail, redisSet_failing env hfail,
    redisDel_failing env hfail, ?_⟩
  intro resps artist song limit ha hs hne
  have hkey := generateSearchKey_ok artist song ha hs
  obtain ⟨qs, hqs⟩ := buildSearchQueries_isOk artist song ha hs hne
  have hcached : getCachedSearchResults env artist song = .ok none := by
    simp only [getCachedSearchResults, hkey, redisGet_failing env hfail]
  have hmb : performMusicBrainzSearch artist song (limit * 2) resps =
      .ok (mbMergedResults artist song (limit * 2) resps) := by
    unfold performMusicBrainzSearch mbMergedResults
    rw [hqs]
  have hwrite : cacheSearchResults env artist song
      (transformResults (sortResults (mbMergedResults artist song (limit * 2) resps) artist))
      (calculateSearchTTL artist) = .ok false := by
    simp only [cacheSearchResults, hkey, redisSet_failing env hfail]
  simp only [searchWithSmartPrioritization, hcached, hmb, hwrite, freshSearchResponse]

/-- Failing cache environment of the C4 witness: never connected, every
client operation raising. -/
def w4env : CacheEnv CachedSearch :=
  { connected := false,
    client := { cget := fun _ => .error (), cset := fun _ _ _ => .error (),
                cdel := fun _ => .error () } }

/-- Upstream behavior of the C4 witness: every query attempt succeeds
with an empty result list. -/
def w4resps : Nat → Except Unit (List Recording) := fun _ => .ok []

/-- C4 witness: on the concrete failing environment, `get` misses, `set`
and `delete` fail, and the search returns the fresh ranked response. -/
theorem C4_cache_degradation_witness :
    failingCache w4env ∧
    redisGet w4env "k" = none ∧
    redisSet w4env "k" ⟨[], 0, "", ""⟩ none = false ∧
    redisDel w4env "k" = false ∧
    searchWithSmartPrioritization w4env w4resps "The Beatles" "Come Together" 5 =
      .ok (freshSearchResponse w4resps "The Beatles" "Come Together" 5) := by
  have h := C4_cache_degradation w4env (Or.inl rfl)
  exact ⟨Or.inl rfl, h.1 "k", h.2.1 "k" ⟨[], 0, "", ""⟩ none, h.2.2.1 "k",
    h.2.2.2 w4resps "The Beatles" "Come Together" 5 (by decide) (by decide)
      (Or.inl (by decide))⟩

/-! ## C10: the orchestrated-path release invariant -/

/-- Release status admissible after `filterOfficialReleases`: explicitly
Official, or a JS-falsy status (absent or empty). -/
def officialStatusOk (rel : Release) : Prop :=
  rel.status = some "Official" ∨ rel.status = none ∨ rel.status = some ""

instance (rel : Release) : Decidable (officialStatusOk rel) := by
  unfold officialStatusOk
  infer_instance

theorem filterOfficialReleases_sound (recs : List Recording) (rec : Recording)
    (hmem : rec ∈ filterOfficialReleases recs) :
    (rec.releases.getD []) ≠ [] ∧ ∀ rel ∈ rec.releases.getD [], officialStatusOk rel := by
  unfold filterOfficialReleases at hmem
  rw [List.mem_filter] at hmem
  obtain ⟨hmap, hne⟩ := hmem
  constructor
  · rw [Bool.not_eq_true'] at hne
    exact List.isEmpty_eq_false.mp hne
  · intro rel hrel
    rw [List.mem_map] at hmap
    obtain ⟨orig, _, horig⟩ := hmap
    rw [← horig] at hrel
    have hrel2 : rel ∈ (orig.releases.getD []).filter fun release =>
        release.status == some "Official" || !(jsTruthy release.status) := hrel
    have hp := (List.mem_filter.mp hrel2).2
    rcases hst : rel.status with _ | s
    · exact Or.inr (Or.inl hst)
    · rw [hst] at hp
      simp only [Bool.or_eq_true, beq_iff_eq, Bool.not_eq_true', jsTruthy] at hp
      rcases hp with hp | hp
      · exact Or.inl (by rw [hst, hp])
      · simp only [decide_eq_false_iff_not, not_not] at hp
        exact Or.inr (Or.inr (by rw [hst, hp]))

theorem dedupFold_subset :
    ∀ (l acc : List Recording) (r : Recording),
      r ∈ l.foldl (fun a x => if a.any fun existing => existing.id == x.id
                   then a else a ++ [x]) acc →
      r ∈ acc ∨ r ∈ l := by
  intro l
  induction l with
  | nil =>
    intro acc r h
    exact Or.inl h
  | cons x t ih =>
    intro acc r h
    rw [List.foldl_cons] at h
    rcases ih _ r h with h2 | h2
    · by_cases hc : (acc.any fun existing => existing.id == x.id) = true
      · rw [if_pos hc] at h2
        exact Or.inl h2
      · rw [if_neg hc] at h2
        rcases List.mem_append.mp h2 with h3 | h3
        · exact Or.inl h3
        · rw [List.mem_singleton.mp h3]
          exact Or.inr (List.mem_cons_self x t)
    · exact Or.inr (List.mem_cons_of_mem x h2)

theorem mbAttempts_sound (resps : Nat → Except Unit (List Recording)) (limit : Nat) :
    ∀ (qs : List String) (i : Nat) (acc : List Recording),
      (∀ r ∈ acc, (r.releases.getD []) ≠ [] ∧
        ∀ rel ∈ r.releases.getD [], officialStatusOk rel) →
      ∀ r ∈ mbAttempts resps limit i qs acc,
        (r.releases.getD []) ≠ [] ∧ ∀ rel ∈ r.releases.getD [], officialStatusOk rel := by
  intro qs
  induction qs with
  | nil =>
    intro i acc hacc r hr
    exact hacc r hr
  | cons q t ih =>
    intro i acc hacc r hr
    unfold mbAttempts at hr
    by_cases hl : limit ≤ acc.length
    · rw [if_pos hl] at hr
      exact hacc r hr
    · rw [if_neg hl] at hr
      cases hresp : resps i with
      | error e =>
        rw [hresp] at hr
        exact ih (i + 1) acc hacc r hr
      | ok recordings =>
        rw [hresp] at hr
        have hr2 : r ∈ (if (i == 0 && !(filterOfficialReleases recordings).isEmpty) = true
            then (filterOfficialReleases recordings).foldl
              (fun a x => if a.any fun existing => existing.id == x.id
               then a else a ++ [x]) acc
            else mbAttempts resps limit (i + 1) t
              ((filterOfficialReleases recordings).foldl
                (fun a x => if a.any fun existing => existing.id == x.id
                 then a else a ++ [x]) acc)) := hr
        have hacc2 : ∀ s ∈ (filterOfficialReleases recordings).foldl
            (fun a x => if a.any fun existing => existing.id == x.id
             then a else a ++ [x]) acc,
            (s.releases.getD []) ≠ [] ∧
            ∀ rel ∈ s.releases.getD [], officialStatusOk rel := by
          intro s hs
          rcases dedupFold_subset _ acc s hs with h2 | h2
          · exact hacc s h2
          · exact filterOfficialReleases_sound recordings s h2
        by_cases hfirst : (i == 0 && !(filterOfficialReleases recordings).isEmpty) = true
        · rw [if_pos hfirst] at hr2
          exact hacc2 r hr2
        · rw [if_neg hfirst] at hr2
          exact ih (i + 1) _ hacc2 r hr2

theorem findBestRelease_none_iff (rs : List Release) :
    findBestRelease rs = none ↔ rs = [] := by
  unfold findBestRelease
  rw [List.head?_eq_none_iff]
  constructor
  · intro h
    have hlen := (perm_sortCmp cmpRelease rs).length_eq
    rw [h] at hlen
    exact List.length_eq_zero.mp hlen.symm
  · intro h
    subst h
    rfl

theorem findBestRelease_mem (rs : List Release) (r : Release)
    (h : findBestRelease rs = some r) : r ∈ rs := by
  unfold findBestRelease at h
  cases hsort : sortCmp cmpRelease rs with
  | nil =>
    rw [hsort] at h
    cases h
  | cons a t =>
    rw [hsort] at h
    injection h with har
    subst har
    exact (perm_sortCmp cmpRelease rs).mem_iff.mp (by rw [hsort]; exact List.mem_cons_self a t)

/-- C10 (confirmed): every candidate the cache-missing search path hands
to the ranking engine has a non-empty releases list whose every release
is Official or status-less, so its best release exists and is never
Bootleg — the ranker's "No releases" and "Bootleg" branches are
unreachable for live-search candidates. -/
theorem C10_orchestrated_invariant :
    ∀ (artist song : String) (limit : Nat)
      (resps : Nat → Except Unit (List Recording)) (rec : Recording),
      rec ∈ mbMergedResults artist song limit resps →
      (rec.releases.getD []) ≠ [] ∧
      (∀ rel ∈ rec.releases.getD [], officialStatusOk rel) ∧
      findBestRelease (rec.releases.getD []) ≠ none ∧
      (∀ best, findBestRelease (rec.releases.getD []) = some best →
        best.status ≠ some "Bootleg") := by
  intro artist song limit resps rec hmem
  unfold mbMergedResults at hmem
  have hbase : (rec.releases.getD []) ≠ [] ∧
      ∀ rel ∈ rec.releases.getD [], officialStatusOk rel := by
    cases hq : buildSearchQueries artist song with
    | error e =>
      rw [hq] at hmem
      cases hmem
    | ok qs =>
      rw [hq] at hmem
      exact mbAttempts_sound resps limit qs 0 [] (fun r hr => absurd hr (by simp)) rec hmem
  refine ⟨hbase.1, hbase.2, ?_, ?_⟩
  · intro hnone
    exact hbase.1 ((findBestRelease_none_iff _).mp hnone)
  · intro best hbest
    have hb := hbase.2 best (findBestRelease_mem _ best hbest)
    rcases hb with hb | hb | hb <;> rw [hb] <;> simp

/-- Recording used by the C10 witness: one Official Album release. -/
def w10rec : Recording :=
  { id := "w10", title := "T",
    releases := some [{ title := "Alb", status := some "Official",
                        primaryType := some "Album",
                        firstReleaseDate := some "1970" }] }

/-- Upstream behavior of the C10 witness: every attempt returns the one
recording. -/
def w10resps : Nat → Except Unit (List Recording) := fun _ => .ok [w10rec]

/-- C10 witness: the concrete merged candidate satisfies the invariant
and its best release exists and is not Bootleg. -/
theorem C10_orchestrated_invariant_witness :
    w10rec ∈ mbMergedResults "a" "b" 5 w10resps ∧
    (w10rec.releases.getD []) ≠ [] ∧
    (∀ rel ∈ w10rec.releases.getD [], officialStatusOk rel) ∧
    findBestRelease (w10rec.releases.getD []) ≠ none ∧
    (∀ best, findBestRelease (w10rec.releases.getD []) = some best →
      best.status ≠ some "Bootleg") := by
  have h := C10_orchestrated_invariant "a" "b" 5 w10resps w10rec (by decide)
  exact ⟨by decide, h.1, h.2.1, h.2.2.1, h.2.2.2⟩
